import Mathlib

/-!
Verification of the DAG execution core of dagu (internal/scheduler/node.go)
against its natural-language specification.

The Go code is shallowly embedded: each method of `Node` becomes a pure Lean
function over an explicit state record, with the ambient OS behaviour (file
creation results, flush/sync results, the child process's exit status and
stdout bytes) supplied as an explicit "world" argument.  Go's `error` values
are modelled as `Option Err` (`none` = `nil`).  Helper functions of the
repository's `utils` package that are not part of the provided sources
(`SplitCommand`, `ValidFilename`, `TruncString`) are modelled from the spec
and carry a doc comment saying so.
-/

set_option autoImplicit false

namespace Dagu

/-- Go `error` values, abstracted to their message. `Option Err` plays the
role of a possibly-`nil` Go `error`. -/
abbrev Err := String

/-- `NodeStatus` from node.go (None, Running, Error, Cancel, Success, Skipped). -/
inductive NodeStatus where
  | none
  | running
  | error
  | cancel
  | success
  | skipped
deriving DecidableEq, Repr

/-! ## Teardown (node.go, `Node.teardown`)

The writers and files a node owns are modelled by their observable teardown
behaviour: a `bufio.Writer` by the result of its `Flush` call, an `os.File`
by the result of its `Sync` call (the `Close` result is discarded by the
code, so it is not modelled). -/

/-- A `bufio.Writer` as the teardown sees it: the outcome of `Flush`. -/
structure BufWriter where
  flushErr : Option Err
deriving DecidableEq, Repr

/-- An `os.File` as the teardown sees it: its name and the outcome of `Sync`. -/
structure OSFile where
  name : String
  syncErr : Option Err
deriving DecidableEq, Repr

/-- The slice of `Node` state that `teardown` reads and writes, plus
booleans recording the side effects (closes, script removal) it performs. -/
structure TDNode where
  error : Option Err
  done : Bool
  logWriter : Option BufWriter
  stdoutWriter : Option BufWriter
  logFile : Option OSFile
  stdoutFile : Option OSFile
  scriptFile : Option String
  logFileClosed : Bool
  stdoutFileClosed : Bool
  scriptRemoved : Bool
deriving DecidableEq, Repr

/-- One iteration of teardown's first loop:
`if w != nil { if err := w.Flush(); err != nil { lastErr = err } }`. -/
def flushStep (acc : Option Err) (w : Option BufWriter) : Option Err :=
  match w with
  | some wr =>
    match wr.flushErr with
    | some e => some e
    | Option.none => acc
  | Option.none => acc

/-- One iteration of teardown's second loop (the `Close` result is ignored
by the code): `if f != nil { if err := f.Sync(); err != nil { lastErr = err } }`. -/
def syncStep (acc : Option Err) (f : Option OSFile) : Option Err :=
  match f with
  | some fl =>
    match fl.syncErr with
    | some e => some e
    | Option.none => acc
  | Option.none => acc

/-- `Node.teardown` (node.go lines 273-302).  Returns the updated node state
and the returned `error`.  The two Go `for` loops over the two-element
slices `[logWriter, stdoutWriter]` and `[logFile, stdoutFile]` are the two
`foldl`s. -/
def teardown (n : TDNode) : TDNode × Option Err :=
  if n.done then (n, Option.none)
  else
    let n1 := { n with done := true }
    let lastErr := [n1.logWriter, n1.stdoutWriter].foldl flushStep Option.none
    let lastErr := [n1.logFile, n1.stdoutFile].foldl syncStep lastErr
    let n2 := { n1 with
      logFileClosed := n1.logFile.isSome || n1.logFileClosed,
      stdoutFileClosed := n1.stdoutFile.isSome || n1.stdoutFileClosed,
      scriptRemoved := n1.scriptFile.isSome || n1.scriptRemoved }
    if lastErr.isSome then ({ n2 with error := lastErr }, lastErr)
    else (n2, lastErr)

/-- The flush/sync errors teardown encounters, in the order it encounters
them: log-writer flush, stdout-writer flush, log-file sync, stdout-file sync. -/
def teardownErrs (n : TDNode) : List Err :=
  (n.logWriter.bind BufWriter.flushErr).toList
    ++ (n.stdoutWriter.bind BufWriter.flushErr).toList
    ++ (n.logFile.bind OSFile.syncErr).toList
    ++ (n.stdoutFile.bind OSFile.syncErr).toList

theorem flushStep_or (acc : Option Err) (w : Option BufWriter) :
    flushStep acc w = (w.bind BufWriter.flushErr).or acc := by
  rcases w with _ | ⟨fe⟩
  · rfl
  · rcases fe with _ | e <;> rfl

theorem syncStep_or (acc : Option Err) (f : Option OSFile) :
    syncStep acc f = (f.bind OSFile.syncErr).or acc := by
  rcases f with _ | ⟨nm, se⟩
  · rfl
  · rcases se with _ | e <;> rfl

theorem getLast?_four (o1 o2 o3 o4 : Option Err) :
    (o1.toList ++ o2.toList ++ o3.toList ++ o4.toList).getLast?
      = o4.or (o3.or (o2.or (o1.or Option.none))) := by
  rcases o1 with _ | a <;> rcases o2 with _ | b <;> rcases o3 with _ | c <;>
    rcases o4 with _ | d <;> rfl

/-- A node state exhibiting C1's failure: a pre-existing `Error` (the child's
exit error), a failing log-writer flush, and a failing stdout-file sync. -/
def nC1 : TDNode :=
  { error := some "child-exit", done := false,
    logWriter := some ⟨some "flush-log"⟩, stdoutWriter := Option.none,
    logFile := Option.none, stdoutFile := some ⟨"out", some "sync-stdout"⟩,
    scriptFile := Option.none, logFileClosed := false,
    stdoutFileClosed := false, scriptRemoved := false }

/-- C1 counterexample: on a node whose `Error` is already set to the child's
exit error `"child-exit"`, with the log-writer flush failing with
`"flush-log"` (the first flush/sync error) and the stdout-file sync failing
with `"sync-stdout"` (the last), teardown stores `"sync-stdout"`: it keeps
the *last* flush/sync error, not the first, and it *overwrites* the
previously set `last_error`. -/
theorem teardown_c1_counterexample :
    (teardown nC1).1.error = some "sync-stdout"
    ∧ some "sync-stdout" ≠ nC1.error
    ∧ ("sync-stdout" : String) ≠ "flush-log" := by
  refine ⟨rfl, ?_, ?_⟩ <;> decide

/-- C1 (amended): teardown records the *last* flush/sync error it encounters
(across log-writer flush, stdout-writer flush, log-file sync, stdout-file
sync, in that order) into the node's `Error`, overwriting any previously set
`Error`; a previously set `Error` survives only when every flush and sync
succeeds. -/
theorem teardown_c1_amended (n : TDNode) (h : n.done = false) :
    (teardown n).2 = (teardownErrs n).getLast?
    ∧ (teardown n).1.error = ((teardownErrs n).getLast?).elim n.error some := by
  have hchain : [n.logFile, n.stdoutFile].foldl syncStep
      ([n.logWriter, n.stdoutWriter].foldl flushStep Option.none)
      = (teardownErrs n).getLast? := by
    simp only [List.foldl_cons, List.foldl_nil, flushStep_or, syncStep_or,
      teardownErrs, getLast?_four]
  simp only [teardown, h, Bool.false_eq_true, if_false]
  rw [hchain]
  rcases hL : (teardownErrs n).getLast? with _ | e <;> simp

/-- Witness for `teardown_c1_amended` at a concrete, not-yet-done node. -/
theorem teardown_c1_amended_witness :
    nC1.done = false ∧ (teardown nC1).2 = (teardownErrs nC1).getLast? :=
  ⟨rfl, (teardown_c1_amended nC1 rfl).1⟩

/-- C9: teardown is idempotent.  The first call (on a not-yet-done node)
closes the open files, removes the script file and sets the `done` flag;
any subsequent call returns `nil` and leaves the whole node state unchanged;
a call on an already-done node is a no-op returning `nil`. -/
theorem teardown_idempotent (n : TDNode) :
    (teardown n).1.done = true
    ∧ teardown (teardown n).1 = ((teardown n).1, Option.none)
    ∧ (n.done = false →
        (teardown n).1.logFileClosed = (n.logFile.isSome || n.logFileClosed)
        ∧ (teardown n).1.stdoutFileClosed = (n.stdoutFile.isSome || n.stdoutFileClosed)
        ∧ (teardown n).1.scriptRemoved = (n.scriptFile.isSome || n.scriptRemoved))
    ∧ (n.done = true → teardown n = (n, Option.none)) := by
  have tdone : ∀ m : TDNode, m.done = true → teardown m = (m, Option.none) := by
    intro m hm; simp [teardown, hm]
  by_cases hd : n.done = true
  · have h1 : teardown n = (n, Option.none) := tdone n hd
    refine ⟨by rw [h1]; exact hd, by rw [h1]; exact h1, ?_, fun _ => h1⟩
    intro hfalse; rw [hfalse] at hd; exact absurd hd (by simp)
  · have hd' : n.done = false := by simpa using hd
    have hdone : (teardown n).1.done = true := by
      simp only [teardown, hd', Bool.false_eq_true, if_false]
      split <;> rfl
    refine ⟨hdone, tdone _ hdone, ?_, ?_⟩
    · intro _
      simp only [teardown, hd', Bool.false_eq_true, if_false]
      split <;> simp
    · intro h; rw [h] at hd'; exact absurd hd' (by simp)

/-- Witness for `teardown_idempotent` at a concrete node. -/
theorem teardown_idempotent_witness :
    nC1.done = false
    ∧ ((teardown nC1).1.logFileClosed = (nC1.logFile.isSome || nC1.logFileClosed)
       ∧ (teardown nC1).1.stdoutFileClosed = (nC1.stdoutFile.isSome || nC1.stdoutFileClosed)
       ∧ (teardown nC1).1.scriptRemoved = (nC1.scriptFile.isSome || nC1.scriptRemoved)) :=
  ⟨rfl, (teardown_idempotent nC1).2.2.1 rfl⟩

/-! ## Signal (node.go, `Node.signal`)

Only the fields `signal` reads are modelled: the status and the child
process handle (as the child's pid, `Option Int`; `none` models
`n.cmd == nil`).  The syscall `syscall.Kill(-pid, sig)` is recorded as an
emitted `(target, signal)` pair. -/

/-- The slice of `Node` state that `signal` touches. -/
structure SigNode where
  status : NodeStatus
  cmdPid : Option Int
deriving DecidableEq, Repr

/-- `Node.signal` (node.go lines 180-191): returns the updated node and the
list of `Kill` calls it issued (each a `(target pid, signal)` pair). -/
def signal (n : SigNode) (sig : Int) : SigNode × List (Int × Int) :=
  let sends :=
    if n.status = NodeStatus.running then
      match n.cmdPid with
      | some pid => [(-pid, sig)]
      | Option.none => []
    else []
  let n' :=
    if n.status = NodeStatus.running then { n with status := NodeStatus.cancel }
    else n
  (n', sends)

/-- C4: on a Running node with a child process `pid`, `signal` sends `sig`
to the negative pid (the whole process group) and transitions the status to
Canceled; on a node in any other status it sends nothing and leaves the
state unchanged; and a repeated call after any first call is a no-op, since
the first call never leaves the node Running. -/
theorem signal_c4 (n : SigNode) (sig sig2 pid : Int) :
    (n.status = NodeStatus.running → n.cmdPid = some pid →
      signal n sig = ({ n with status := NodeStatus.cancel }, [(-pid, sig)]))
    ∧ (n.status = NodeStatus.running → (signal n sig).1.status = NodeStatus.cancel)
    ∧ (n.status ≠ NodeStatus.running → signal n sig = (n, []))
    ∧ signal (signal n sig).1 sig2 = ((signal n sig).1, []) := by
  have noop : ∀ (m : SigNode) (s : Int), m.status ≠ NodeStatus.running →
      signal m s = (m, []) := by
    intro m s hm; simp [signal, hm]
  refine ⟨?_, ?_, noop n sig, ?_⟩
  · intro hr hp; simp [signal, hr, hp]
  · intro hr; simp [signal, hr]
  · have hnr : (signal n sig).1.status ≠ NodeStatus.running := by
      by_cases hr : n.status = NodeStatus.running
      · simp [signal, hr]
      · simp [signal, hr]
    exact noop _ sig2 hnr

/-- Witness for `signal_c4`: a Running node with child pid 42; sending
signal 15 kills the process group `-42` and cancels the node. -/
theorem signal_c4_witness :
    signal ⟨NodeStatus.running, some 42⟩ 15
      = (⟨NodeStatus.cancel, some 42⟩, [(-42, 15)]) :=
  (signal_c4 ⟨NodeStatus.running, some 42⟩ 15 15 42).1 rfl rfl

/-! ## Environment expansion (Go stdlib `os.ExpandEnv` / `os.Expand`)

`Node.Execute` calls `os.ExpandEnv(n.CmdWithArgs)`.  The Go stdlib functions
`os.Expand`, `getShellName`, `isShellSpecialVar` and `isAlphaNum` are
embedded below, over `List Char`.  The process environment is an
association list; an unset name expands to the empty string, as
`os.Getenv` does. -/

/-- Go `os.isAlphaNum`: underscore, ASCII digit or ASCII letter. -/
def goIsAlphaNum (c : Char) : Bool :=
  c = '_' || ('0' ≤ c && c ≤ '9') || ('a' ≤ c && c ≤ 'z') || ('A' ≤ c && c ≤ 'Z')

/-- Go `os.isShellSpecialVar`. -/
def goIsShellSpecialVar (c : Char) : Bool :=
  c = '*' || c = '#' || c = '$' || c = '@' || c = '!' || c = '?' || c = '-'
    || ('0' ≤ c && c ≤ '9')

/-- The characters strictly before the first `}` of the list, if any. -/
def upToRBrace : List Char → Option (List Char)
  | [] => Option.none
  | '}' :: _ => some []
  | c :: t => (upToRBrace t).map (c :: ·)

/-- Go `os.getShellName`, applied to the text after a `$`: returns the
variable name and the number of characters consumed. -/
def getShellName (s : List Char) : List Char × Nat :=
  match s with
  | '{' :: c :: '}' :: _ =>
    if goIsShellSpecialVar c then ([c], 3)
    else
      match upToRBrace (c :: '}' :: []) with
      | some [] => ([], 2)
      | some name => (name, name.length + 2)
      | Option.none => ([], 1)
  | '{' :: rest =>
    (match upToRBrace rest with
     | some [] => ([], 2)
     | some name => (name, name.length + 2)
     | Option.none => ([], 1))
  | c :: _ =>
    if goIsShellSpecialVar c then ([c], 1)
    else
      let name := s.takeWhile goIsAlphaNum
      (name, name.length)
  | [] => ([], 0)

/-- Process environment: an association list of `NAME=value` bindings. -/
abbrev Env := List (String × String)

/-- `os.Getenv`, returning `""` for an unset name. -/
def getenvD (env : Env) (name : String) : String :=
  ((env.find? (fun p => p.1 = name)).map Prod.snd).getD ""

/-- Go `os.Expand` over a character list: `$NAME` and `${NAME}` are replaced
through `mapping`; a lone trailing `$` is kept; invalid `${` syntax is
consumed.  The loop advances by at least one character per iteration, so it
is written with a structural fuel argument that is initialised to the list
length and therefore never runs out. -/
def expandGo (mapping : String → String) : Nat → List Char → List Char
  | 0, _ => []
  | _ + 1, [] => []
  | _ + 1, ['$'] => ['$']
  | fuel + 1, '$' :: c :: rest =>
    let nw := getShellName (c :: rest)
    if nw.1.isEmpty && nw.2 > 0 then expandGo mapping fuel ((c :: rest).drop nw.2)
    else if nw.1.isEmpty then
      '$' :: expandGo mapping fuel ((c :: rest).drop nw.2)
    else
      (mapping (String.mk nw.1)).data ++ expandGo mapping fuel ((c :: rest).drop nw.2)
  | fuel + 1, c :: rest => c :: expandGo mapping fuel rest

/-- Go `os.Expand` over a character list. -/
def expandList (mapping : String → String) (l : List Char) : List Char :=
  expandGo mapping l.length l

/-- `os.ExpandEnv` against an explicit environment. -/
def expandEnv (env : Env) (s : String) : String :=
  String.mk (expandList (getenvD env) s.data)

/-! ## Small Go stdlib pieces used by `Execute` -/

/-- `unicode.IsSpace`, restricted to the code points Go treats as space in
the Latin-1 range: space, tab, newline, vertical tab, form feed, carriage
return, NEL (U+0085) and NBSP (U+00A0). -/
def goIsSpace (c : Char) : Bool :=
  c = ' ' || c = '\t' || c = '\n' || c = '\r'
    || c.toNat = 11 || c.toNat = 12 || c.toNat = 133 || c.toNat = 160

/-- `strings.TrimSpace`: drop leading and trailing white space. -/
def trimSpace (s : String) : String :=
  String.mk (((s.data.dropWhile goIsSpace).reverse.dropWhile goIsSpace).reverse)

/-- `os.Setenv` on the association-list environment: overwrite an existing
binding, otherwise append a new one. -/
def setenv (env : Env) (k v : String) : Env :=
  if env.any (fun p => p.1 = k) then
    env.map (fun p => if p.1 = k then (k, v) else p)
  else env ++ [(k, v)]

/-- `os.Getenv` as an `Option`, to observe whether a name is bound. -/
def lookupEnv (env : Env) (k : String) : Option String :=
  (env.find? (fun p => p.1 = k)).map Prod.snd

/-- Split a character list into space-separated fields, accumulating the
current (reversed) token in `acc`. -/
def fieldsAux : List Char → List Char → List String
  | [], acc => if acc.isEmpty then [] else [String.mk acc.reverse]
  | c :: rest, acc =>
    if c = ' ' then
      if acc.isEmpty then fieldsAux rest []
      else String.mk acc.reverse :: fieldsAux rest []
    else fieldsAux rest (c :: acc)

/-- Modelled from the spec: `utils.SplitCommand` (the `utils` package is
not among the provided sources).  The spec says the interpolated
`cmd_with_args` string is "split into (command, args)": the first
space-separated field is the command, the rest are the arguments. -/
def splitCommand (s : String) : String × List String :=
  match fieldsAux s.data [] with
  | [] => ("", [])
  | c :: args => (c, args)

/-! ## Execute (node.go, `Node.Execute`)

`Execute` is embedded as a pure function from the step fields it reads and
an `ExecWorld` (the ambient OS behaviour: whether `os.Pipe` succeeds, the
child's `cmd.Run()` outcome and the bytes the child writes to stdout) to an
`ExecResult` describing everything the method did: the resolved command and
argument list, the argv actually passed to the child, whether the child
ran, what was drained from the capture pipe, the process environment
afterwards, the node's `Error` field and the returned `error`. -/

/-- The step fields `Node.Execute` reads. -/
structure ExecNode where
  cmdWithArgs : String
  command : String
  args : List String
  output : String
  scriptFile : Option String
deriving DecidableEq, Repr

/-- The ambient OS behaviour during one `Execute` call. -/
structure ExecWorld where
  procEnv : Env
  pipeOk : Bool
  pipeErr : Err
  runErr : Option Err
  childStdout : String
deriving DecidableEq, Repr

/-- Everything observable about one `Execute` call. -/
structure ExecResult where
  nodeCommand : String
  nodeArgs : List String
  argsUsed : List String
  ranChild : Bool
  pipeDrained : Option String
  env : Env
  nodeError : Option Err
  ret : Option Err
deriving DecidableEq, Repr

/-- `Node.Execute` (node.go lines 84-136).  `cmd_with_args`, when set, is
resolved via `utils.SplitCommand(os.ExpandEnv(...))` and assigned back to
the node's `Command`/`Args`; a script file's path is appended to the argv;
a failing `os.Pipe` returns before the child is started; after `cmd.Run()`
the capture pipe is drained and its trimmed contents stored in the process
environment under the `Output` name. -/
def Execute (n : ExecNode) (w : ExecWorld) : ExecResult :=
  let ca :=
    if n.cmdWithArgs ≠ "" then splitCommand (expandEnv w.procEnv n.cmdWithArgs)
    else (n.command, n.args)
  let argsUsed :=
    match n.scriptFile with
    | some f => ca.2 ++ [f]
    | Option.none => ca.2
  if n.output ≠ "" && !w.pipeOk then
    { nodeCommand := ca.1, nodeArgs := ca.2, argsUsed := argsUsed,
      ranChild := false, pipeDrained := Option.none, env := w.procEnv,
      nodeError := Option.none, ret := some w.pipeErr }
  else
    let envAfter :=
      if n.output ≠ "" then setenv w.procEnv n.output (trimSpace w.childStdout)
      else w.procEnv
    let drained := if n.output ≠ "" then some w.childStdout else Option.none
    { nodeCommand := ca.1, nodeArgs := ca.2, argsUsed := argsUsed,
      ranChild := true, pipeDrained := drained, env := envAfter,
      nodeError := w.runErr, ret := w.runErr }

theorem find?_map_overwrite (env : Env) (k v : String)
    (h : env.any (fun p => p.1 = k) = true) :
    (env.map (fun p => if p.1 = k then (k, v) else p)).find? (fun p => p.1 = k)
      = some (k, v) := by
  induction env with
  | nil => simp at h
  | cons p t ih =>
    by_cases hp : p.1 = k
    · simp [List.find?_cons, hp]
    · have ht : t.any (fun p => p.1 = k) = true := by
        simp only [List.any_cons, Bool.or_eq_true, decide_eq_true_eq] at h
        rcases h with h | h
        · exact absurd h hp
        · exact h
      simp only [List.map_cons, hp, if_false, if_neg hp]
      rw [List.find?_cons_of_neg _ (by simpa using hp)]
      exact ih ht

theorem find?_append_new (env : Env) (k v : String)
    (h : env.any (fun p => p.1 = k) = false) :
    (env ++ [(k, v)]).find? (fun p => p.1 = k) = some (k, v) := by
  induction env with
  | nil => simp [List.find?_cons]
  | cons p t ih =>
    simp only [List.any_cons, Bool.or_eq_false_iff, decide_eq_false_iff_not] at h
    rw [List.cons_append, List.find?_cons_of_neg _ (by simpa using h.1)]
    exact ih (by simpa using h.2)

theorem lookupEnv_setenv (env : Env) (k v : String) :
    lookupEnv (setenv env k v) k = some v := by
  by_cases h : env.any (fun p => p.1 = k) = true
  · simp only [setenv, h, if_true, lookupEnv, find?_map_overwrite env k v h]
    rfl
  · have h' : env.any (fun p => p.1 = k) = false := by
      cases hb : env.any (fun p => p.1 = k)
      · rfl
      · exact absurd hb h
    simp only [setenv, h', Bool.false_eq_true, if_false, lookupEnv,
      find?_append_new env k v h']
    rfl

/-- C2: whenever a step declares a capture-output variable (`Output`
non-empty), the pipe is created, and the child exits normally
(`cmd.Run()` returns `nil`), Execute drains the child's stdout bytes from
the pipe and stores them, whitespace-trimmed, in the process environment
under the declared name. -/
theorem execute_c2_capture (n : ExecNode) (w : ExecWorld)
    (hout : n.output ≠ "") (hpipe : w.pipeOk = true) (hrun : w.runErr = Option.none) :
    (Execute n w).pipeDrained = some w.childStdout
    ∧ lookupEnv (Execute n w).env n.output = some (trimSpace w.childStdout)
    ∧ (Execute n w).ret = Option.none := by
  have hcond : (decide (n.output ≠ "") && !w.pipeOk) = false := by
    simp [hpipe]
  simp only [Execute, hcond, Bool.false_eq_true, if_false]
  refine ⟨by simp [hout], by simp [hout, lookupEnv_setenv], by simp [hrun]⟩

/-- Witness for `execute_c2_capture`: a step capturing into `RESULT`, child
exiting 0 having written `" hi \n"`; the environment gains `RESULT=hi`. -/
theorem execute_c2_capture_witness :
    lookupEnv (Execute ⟨"", "echo", ["hi"], "RESULT", Option.none⟩
        ⟨[], true, "pipe-error", Option.none, " hi \n"⟩).env "RESULT"
      = some (trimSpace " hi \n") :=
  (execute_c2_capture ⟨"", "echo", ["hi"], "RESULT", Option.none⟩
    ⟨[], true, "pipe-error", Option.none, " hi \n"⟩
    (by decide) rfl rfl).2.1

/-- C10: the capture-output environment write is not gated on a successful
exit: for any `cmd.Run()` outcome whatsoever (in particular any non-zero
exit error), once the child has run, the trimmed captured stdout is written
to the process environment under the declared name, and the run error is
still what Execute returns. -/
theorem execute_c10_capture_on_error (n : ExecNode) (w : ExecWorld)
    (hout : n.output ≠ "") (hpipe : w.pipeOk = true) :
    (Execute n w).ranChild = true
    ∧ lookupEnv (Execute n w).env n.output = some (trimSpace w.childStdout)
    ∧ (Execute n w).ret = w.runErr
    ∧ (Execute n w).nodeError = w.runErr := by
  have hcond : (decide (n.output ≠ "") && !w.pipeOk) = false := by
    simp [hpipe]
  simp only [Execute, hcond, Bool.false_eq_true, if_false]
  refine ⟨?_, ?_, ?_, ?_⟩ <;> simp [hout, lookupEnv_setenv]

/-- Witness for `execute_c10_capture_on_error`: the child fails with
`"exit status 1"`, yet `RESULT` is still written with the trimmed stdout. -/
theorem execute_c10_capture_on_error_witness :
    lookupEnv (Execute ⟨"", "sh", [], "RESULT", Option.none⟩
        ⟨[], true, "pipe-error", some "exit status 1", "partial out\n"⟩).env "RESULT"
      = some (trimSpace "partial out\n")
    ∧ (Execute ⟨"", "sh", [], "RESULT", Option.none⟩
        ⟨[], true, "pipe-error", some "exit status 1", "partial out\n"⟩).ret
      = some "exit status 1" := by
  have h := execute_c10_capture_on_error ⟨"", "sh", [], "RESULT", Option.none⟩
    ⟨[], true, "pipe-error", some "exit status 1", "partial out\n"⟩ (by decide) rfl
  exact ⟨h.2.1, h.2.2.1⟩

/-- C6: when a script file exists, the argv passed to the child is the
node's argument list followed by the script file's path as final argument;
with no script file the argv is exactly the node's argument list; and when
`cmd_with_args` is unset the node's argument list is the step's declared
`Args`. -/
theorem execute_c6_script_args (n : ExecNode) (w : ExecWorld) (f : String) :
    (n.scriptFile = some f →
      (Execute n w).argsUsed = (Execute n w).nodeArgs ++ [f])
    ∧ (n.scriptFile = Option.none →
      (Execute n w).argsUsed = (Execute n w).nodeArgs)
    ∧ (n.cmdWithArgs = "" → (Execute n w).nodeArgs = n.args) := by
  refine ⟨?_, ?_, ?_⟩
  · intro hf
    simp only [Execute, hf]
    split <;> rfl
  · intro hf
    simp only [Execute, hf]
    split <;> rfl
  · intro hc
    simp only [Execute, hc, ne_eq, not_true_eq_false, if_false, if_neg]
    split <;> rfl

/-- Witness for `execute_c6_script_args`: declared args `["-c", "x"]` plus
script file `/tmp/dagu_script-1` give argv `["-c", "x", "/tmp/dagu_script-1"]`. -/
theorem execute_c6_script_args_witness :
    (Execute ⟨"", "bash", ["-c", "x"], "", some "/tmp/dagu_script-1"⟩
        ⟨[], true, "", Option.none, ""⟩).argsUsed
      = (Execute ⟨"", "bash", ["-c", "x"], "", some "/tmp/dagu_script-1"⟩
        ⟨[], true, "", Option.none, ""⟩).nodeArgs ++ ["/tmp/dagu_script-1"] :=
  (execute_c6_script_args ⟨"", "bash", ["-c", "x"], "", some "/tmp/dagu_script-1"⟩
    ⟨[], true, "", Option.none, ""⟩ "/tmp/dagu_script-1").1 rfl

/-! ## The spec's Output Interpolator (for claim C3)

The spec (§4.2) prescribes two substitutions for step fields: environment
expansion, then backtick command substitution.  The backtick pass is
modelled from the spec's words, with the platform shell abstracted as an
oracle `shell : String → String` giving each command's stdout. -/

/-- The characters strictly before the first backtick of the list, if any. -/
def upToBacktick : List Char → Option (List Char)
  | [] => Option.none
  | '`' :: _ => some []
  | c :: t => (upToBacktick t).map (c :: ·)

/-- Modelled from the spec: "a backtick-delimited substring is executed as
a shell command and replaced with its trimmed stdout" (§4.2).  Written with
a structural fuel argument initialised to the list length, which never runs
out because every step consumes at least one character. -/
def btGo (shell : String → String) : Nat → List Char → List Char
  | 0, _ => []
  | _ + 1, [] => []
  | fuel + 1, '`' :: rest =>
    (match upToBacktick rest with
     | some cmd =>
       (trimSpace (shell (String.mk cmd))).data
         ++ btGo shell fuel (rest.drop (cmd.length + 1))
     | Option.none => '`' :: btGo shell fuel rest)
  | fuel + 1, c :: rest => c :: btGo shell fuel rest

/-- Modelled from the spec: backtick command substitution over a string. -/
def backtickSubst (shell : String → String) (s : String) : String :=
  String.mk (btGo shell s.data.length s.data)

/-- Modelled from the spec: the full Output Interpolator (§4.2) —
environment expansion followed by backtick command substitution. -/
def interpolateSpec (env : Env) (shell : String → String) (s : String) : String :=
  backtickSubst shell (expandEnv env s)

theorem expandGo_no_dollar (m : String → String) (fuel : Nat) (l : List Char)
    (hl : l.length ≤ fuel) (h : '$' ∉ l) : expandGo m fuel l = l := by
  induction fuel generalizing l with
  | zero =>
    cases l with
    | nil => rfl
    | cons c rest => simp at hl
  | succ f ih =>
    cases l with
    | nil => rfl
    | cons c rest =>
      have hc : c ≠ '$' := fun hcc => h (hcc ▸ List.mem_cons_self c rest)
      have hrest : '$' ∉ rest := fun hr => h (List.mem_cons_of_mem c hr)
      have hlen : rest.length ≤ f := by simpa using hl
      have hstep : expandGo m (f + 1) (c :: rest) = c :: expandGo m f rest := by
        rw [expandGo.eq_def]
        split <;> simp_all
      rw [hstep, ih rest hlen hrest]

theorem expandList_no_dollar (m : String → String) (l : List Char)
    (h : '$' ∉ l) : expandList m l = l :=
  expandGo_no_dollar m l.length l le_rfl h

theorem expandEnv_no_dollar (env : Env) (s : String) (h : '$' ∉ s.data) :
    expandEnv env s = s := by
  show String.mk (expandList (getenvD env) s.data) = s
  rw [expandList_no_dollar _ _ h]

/-- The concrete step for C3: `cmd_with_args` containing a backtick
command substitution. -/
def nC3 : ExecNode := ⟨"echo `date`", "", [], "", Option.none⟩

/-- An empty-environment world for C3. -/
def wC3 : ExecWorld := ⟨[], true, "", Option.none, ""⟩

/-- A shell oracle for C3 under which `date` prints `20260101`. -/
def shellC3 : String → String := fun _ => "20260101"

/-- C3 counterexample: for `cmd_with_args = "echo `date`"` under an empty
environment and a shell whose `date` prints `20260101`, the code resolves
the command to `("echo", ["`date`"])` — the backtick segment is passed
through literally — while interpolation per the Output Interpolator rules
(environment expansion *and* backtick substitution, as the claim states)
would give `("echo", ["20260101"])`. -/
theorem execute_c3_counterexample :
    ((Execute nC3 wC3).nodeCommand, (Execute nC3 wC3).nodeArgs)
      = ("echo", ["`date`"])
    ∧ splitCommand (interpolateSpec [] shellC3 "echo `date`")
      = ("echo", ["20260101"])
    ∧ (["`date`"] : List String) ≠ ["20260101"] := by
  refine ⟨rfl, rfl, by decide⟩

/-- C3 (amended): when `cmd_with_args` is set, Execute resolves the
effective command by environment-variable expansion only (`os.ExpandEnv`)
followed by splitting into (command, args); backtick command substitution
is not applied, so on any `cmd_with_args` free of `$` the string is split
verbatim, backticks included. -/
theorem execute_c3_amended (n : ExecNode) (w : ExecWorld)
    (h : n.cmdWithArgs ≠ "") :
    ((Execute n w).nodeCommand, (Execute n w).nodeArgs)
      = splitCommand (expandEnv w.procEnv n.cmdWithArgs)
    ∧ ('$' ∉ n.cmdWithArgs.data →
        ((Execute n w).nodeCommand, (Execute n w).nodeArgs)
          = splitCommand n.cmdWithArgs) := by
  have hmain : ((Execute n w).nodeCommand, (Execute n w).nodeArgs)
      = splitCommand (expandEnv w.procEnv n.cmdWithArgs) := by
    simp only [Execute, h, ne_eq, not_false_eq_true, if_true]
    split <;> rfl
  exact ⟨hmain, fun hd => by rw [hmain, expandEnv_no_dollar _ _ hd]⟩

/-- Witness for `execute_c3_amended` at the concrete C3 step. -/
theorem execute_c3_amended_witness :
    ((Execute nC3 wC3).nodeCommand, (Execute nC3 wC3).nodeArgs)
      = splitCommand nC3.cmdWithArgs :=
  (execute_c3_amended nC3 wC3 (by decide)).2 (by decide)

/-! ## Setup (node.go, `Node.setup` and its sub-steps)

`setup` stamps `StartedAt`, computes the log path with
`fmt.Sprintf("%s.%s.%s.log", ValidFilename(name, "_"),
StartedAt.Format("20060102.15:04:05.000"), TruncString(requestId, 8))`
joined under the log directory, and then runs the three sub-steps
`setupLog`, `setupStdout`, `setupScript` in order, stopping at the first
error.  File-system outcomes are supplied by a `SetupWorld`. -/

/-- A wall-clock instant, as the components Go's reference layout
`20060102.15:04:05.000` prints. -/
structure DateTime where
  year : Nat
  month : Nat
  day : Nat
  hour : Nat
  minute : Nat
  sec : Nat
  ms : Nat
deriving DecidableEq, Repr

/-- The decimal digit character for `d` (`d < 10`). -/
def digitChar (d : Nat) : Char := Char.ofNat (48 + d)

/-- Zero-padded two-digit decimal print (faithful to Go for `n < 100`). -/
def pad2 (n : Nat) : List Char := [digitChar (n / 10 % 10), digitChar (n % 10)]

/-- Zero-padded three-digit decimal print (faithful to Go for `n < 1000`). -/
def pad3 (n : Nat) : List Char :=
  [digitChar (n / 100 % 10), digitChar (n / 10 % 10), digitChar (n % 10)]

/-- Four-digit decimal year print (faithful to Go for `y < 10000`). -/
def pad4 (n : Nat) : List Char :=
  [digitChar (n / 1000 % 10), digitChar (n / 100 % 10),
   digitChar (n / 10 % 10), digitChar (n % 10)]

/-- Go `time.Format` with layout `20060102.15:04:05.000`. -/
def formatTsList (t : DateTime) : List Char :=
  pad4 t.year ++ pad2 t.month ++ pad2 t.day ++ ['.'] ++ pad2 t.hour ++ [':']
    ++ pad2 t.minute ++ [':'] ++ pad2 t.sec ++ ['.'] ++ pad3 t.ms

/-- Go `time.Format` with layout `20060102.15:04:05.000`, as a string. -/
def formatTs (t : DateTime) : String := String.mk (formatTsList t)

/-- ASCII decimal digit test. -/
def isDigitChar (c : Char) : Bool := 48 ≤ c.toNat && c.toNat ≤ 57

/-- The claim's timestamp shape `YYYYMMDD.HH:MM:SS.mmm` over a character
list: 8 digits, a dot, 2 digits, a colon, 2 digits, a colon, 2 digits, a
dot, 3 digits. -/
def tsShapeL : List Char → Bool
  | [y1, y2, y3, y4, mo1, mo2, d1, d2, dot1, h1, h2, col1, mi1, mi2, col2,
     s1, s2, dot2, ms1, ms2, ms3] =>
    [y1, y2, y3, y4, mo1, mo2, d1, d2, h1, h2, mi1, mi2, s1, s2,
     ms1, ms2, ms3].all isDigitChar
      && dot1 = '.' && col1 = ':' && col2 = ':' && dot2 = '.'
  | _ => false

/-- The claim's timestamp shape `YYYYMMDD.HH:MM:SS.mmm` for a string. -/
def tsShape (s : String) : Bool := tsShapeL s.data

/-- Modelled from the spec: the filename-safe characters — ASCII letters,
digits, dot, dash and underscore. -/
def filenameSafe (c : Char) : Bool :=
  ('0' ≤ c && c ≤ '9') || ('a' ≤ c && c ≤ 'z') || ('A' ≤ c && c ≤ 'Z')
    || c = '.' || c = '-' || c = '_'

/-- Modelled from the spec: `utils.ValidFilename` (the `utils` package is
not among the provided sources) — "sanitization replaces every
non-filename-safe character of the step name" with the replacement. -/
def validFilename (s : String) (repl : Char) : String :=
  String.mk (s.data.map (fun c => if filenameSafe c then c else repl))

/-- Modelled from the spec: `utils.TruncString` (the `utils` package is not
among the provided sources) — the first `k` characters of the string. -/
def truncString (s : String) (k : Nat) : String := String.mk (s.data.take k)

/-- Go `filepath.IsAbs` on Unix: the path starts with a slash. -/
def isAbs (s : String) : Bool :=
  match s.data with
  | '/' :: _ => true
  | _ => false

/-- Go `filepath.Join` of two components that are already clean paths:
empty components are dropped, the rest joined with a slash
(`filepath.Clean`, the identity on such inputs, is not modelled). -/
def filepathJoin (a b : String) : String :=
  if a = "" then b else if b = "" then a else a ++ "/" ++ b

/-- The log path `setup` computes. -/
def setupLogPath (logDir requestId name : String) (now : DateTime) : String :=
  filepathJoin logDir
    (validFilename name '_' ++ "." ++ formatTs now ++ "."
      ++ truncString requestId 8 ++ ".log")

/-- `os.ErrInvalid`, the error of operating on a nil `*os.File`. -/
def errInvalid : Err := "invalid argument"

/-- File-system outcomes during one `setup` call: the result of
`utils.OpenOrCreateFile` per path, whether `os.CreateTemp` succeeds and the
temp file's name, and the outcomes of `WriteString` and `Sync` on it. -/
structure SetupWorld where
  openFile : String → Option Err
  createTempOk : Bool
  tempName : String
  writeErr : Option Err
  syncErr : Option Err

/-- The slice of `Node` state that `setup` reads and writes. -/
structure SetupNode where
  name : String
  dir : String
  stdout : String
  script : String
  log : String
  startedAt : Option DateTime
  error : Option Err
  logFile : Option String
  logWriter : Bool
  stdoutFile : Option String
  stdoutWriter : Bool
  scriptFile : Option String

/-- `Node.setupLog` (node.go lines 259-271). -/
def setupLog (n : SetupNode) (w : SetupWorld) : SetupNode × Option Err :=
  if n.log = "" then (n, Option.none)
  else
    match w.openFile n.log with
    | some e => ({ n with error := some e }, some e)
    | Option.none => ({ n with logFile := some n.log, logWriter := true }, Option.none)

/-- The path the stdout redirect file is opened at (node.go lines 244-247):
the declared `Stdout` path as-is when absolute, otherwise joined under the
step's working directory. -/
def stdoutPath (dir stdoutField : String) : String :=
  if isAbs stdoutField then stdoutField else filepathJoin dir stdoutField

/-- `Node.setupStdout` (node.go lines 242-257). -/
def setupStdout (n : SetupNode) (w : SetupWorld) : SetupNode × Option Err :=
  if n.stdout = "" then (n, Option.none)
  else
    let f := stdoutPath n.dir n.stdout
    match w.openFile f with
    | some e => ({ n with error := some e }, some e)
    | Option.none => ({ n with stdoutFile := some f, stdoutWriter := true }, Option.none)

/-- `Node.setupScript` (node.go lines 228-240): the `os.CreateTemp` error
is discarded; when creation failed, the subsequent `WriteString` on the nil
file handle yields `os.ErrInvalid`. -/
def setupScript (n : SetupNode) (w : SetupWorld) : SetupNode × Option Err :=
  if n.script = "" then (n, Option.none)
  else
    let sf := if w.createTempOk then some w.tempName else Option.none
    let n1 := { n with scriptFile := sf }
    match sf with
    | Option.none => (n1, some errInvalid)
    | some _ =>
      match w.writeErr with
      | some e => (n1, some e)
      | Option.none => (n1, w.syncErr)

/-- One iteration of setup's loop over its sub-steps:
`if err := fn(); err != nil { n.Error = err; return err }`, else continue
with the next sub-step. -/
def andThen (r : SetupNode × Option Err)
    (next : SetupNode → SetupNode × Option Err) : SetupNode × Option Err :=
  match r with
  | (m, some e) => ({ m with error := some e }, some e)
  | (m, Option.none) => next m

/-- `Node.setup` (node.go lines 206-226): stamps `StartedAt`, computes the
log path, then runs the three sub-steps in order, recording the first error
in the node's `Error` and returning it. -/
def setup (n : SetupNode) (w : SetupWorld) (logDir requestId : String)
    (now : DateTime) : SetupNode × Option Err :=
  let n0 := { n with startedAt := some now,
                     log := setupLogPath logDir requestId n.name now }
  andThen (setupLog n0 w) (fun n1 =>
    andThen (setupStdout n1 w) (fun n2 =>
      andThen (setupScript n2 w) (fun n3 => (n3, Option.none))))

theorem isDigitChar_digitChar (d : Nat) (h : d < 10) :
    isDigitChar (digitChar d) = true := by
  interval_cases d <;> decide

theorem tsShape_formatTs (t : DateTime) : tsShape (formatTs t) = true := by
  have hd : ∀ m : Nat, isDigitChar (digitChar (m % 10)) = true := fun m =>
    isDigitChar_digitChar (m % 10) (Nat.mod_lt m (by norm_num))
  show tsShapeL (String.mk (formatTsList t)).data = true
  show tsShapeL (formatTsList t) = true
  simp only [formatTsList, pad4, pad2, pad3, List.cons_append, List.nil_append]
  simp [tsShapeL, hd]

theorem append_ne_empty_of_right (a b : String) (hb : b.data ≠ []) :
    a ++ b ≠ "" := by
  intro hcontra
  have hdata : (a ++ b).data = [] := by rw [hcontra]
  rw [String.data_append] at hdata
  exact hb (List.append_eq_nil.mp hdata).2

theorem setupLogPath_ne_empty (logDir requestId name : String) (now : DateTime)
    (h : logDir ≠ "") : setupLogPath logDir requestId name now ≠ "" := by
  unfold setupLogPath filepathJoin
  rw [if_neg h]
  split
  · exact h
  · exact append_ne_empty_of_right _ _ (by
      rw [String.data_append]
      simp)

theorem setupLog_keeps (n : SetupNode) (w : SetupWorld) :
    (setupLog n w).1.log = n.log ∧ (setupLog n w).1.startedAt = n.startedAt
    ∧ (setupLog n w).1.name = n.name := by
  simp only [setupLog]
  split
  · exact ⟨rfl, rfl, rfl⟩
  · split <;> exact ⟨rfl, rfl, rfl⟩

theorem setupStdout_keeps (n : SetupNode) (w : SetupWorld) :
    (setupStdout n w).1.log = n.log ∧ (setupStdout n w).1.startedAt = n.startedAt
    ∧ (setupStdout n w).1.name = n.name := by
  simp only [setupStdout]
  split
  · exact ⟨rfl, rfl, rfl⟩
  · split <;> exact ⟨rfl, rfl, rfl⟩

theorem setupScript_keeps (n : SetupNode) (w : SetupWorld) :
    (setupScript n w).1.log = n.log ∧ (setupScript n w).1.startedAt = n.startedAt
    ∧ (setupScript n w).1.name = n.name := by
  simp only [setupScript]
  repeat' split
  all_goals exact ⟨rfl, rfl, rfl⟩

theorem andThen_some (m : SetupNode) (e : Err)
    (next : SetupNode → SetupNode × Option Err) :
    andThen (m, some e) next = ({ m with error := some e }, some e) := rfl

theorem andThen_none (m : SetupNode)
    (next : SetupNode → SetupNode × Option Err) :
    andThen (m, Option.none) next = next m := rfl

theorem setup_keeps (n : SetupNode) (w : SetupWorld) (logDir requestId : String)
    (now : DateTime) :
    (setup n w logDir requestId now).1.log
      = setupLogPath logDir requestId n.name now
    ∧ (setup n w logDir requestId now).1.startedAt = some now := by
  simp only [setup]
  rcases hL : setupLog
      { n with startedAt := some now,
               log := setupLogPath logDir requestId n.name now } w with ⟨n1, e1⟩
  have k1 := setupLog_keeps
    { n with startedAt := some now,
             log := setupLogPath logDir requestId n.name now } w
  rw [hL] at k1
  cases e1 with
  | some e => simp only [andThen_some]; exact ⟨k1.1, k1.2.1⟩
  | none =>
    simp only [andThen_none]
    rcases hS : setupStdout n1 w with ⟨n2, e2⟩
    have k2 := setupStdout_keeps n1 w
    rw [hS] at k2
    cases e2 with
    | some e =>
      simp only [andThen_some]
      exact ⟨k2.1.trans k1.1, k2.2.1.trans k1.2.1⟩
    | none =>
      simp only [andThen_none]
      rcases hC : setupScript n2 w with ⟨n3, e3⟩
      have k3 := setupScript_keeps n2 w
      rw [hC] at k3
      cases e3 with
      | some e =>
        simp only [andThen_some]
        exact ⟨(k3.1.trans k2.1).trans k1.1, (k3.2.1.trans k2.2.1).trans k1.2.1⟩
      | none =>
        simp only [andThen_none]
        exact ⟨(k3.1.trans k2.1).trans k1.1, (k3.2.1.trans k2.2.1).trans k1.2.1⟩

/-- C5: setup sets `StartedAt` to the current time and computes the log
path as `{log_dir}/{sanitized name}.{timestamp}.{first 8 chars of the
request id}.log`, where sanitization replaces every non-filename-safe
character of the step name with `_` and the timestamp has the shape
`YYYYMMDD.HH:MM:SS.mmm`. -/
theorem setup_c5_log_path (n : SetupNode) (w : SetupWorld)
    (logDir requestId : String) (now : DateTime) (hdir : logDir ≠ "") :
    (setup n w logDir requestId now).1.startedAt = some now
    ∧ (setup n w logDir requestId now).1.log
      = logDir ++ "/"
        ++ String.mk (n.name.data.map (fun c => if filenameSafe c then c else '_'))
        ++ "." ++ formatTs now ++ "." ++ String.mk (requestId.data.take 8)
        ++ ".log"
    ∧ tsShape (formatTs now) = true := by
  obtain ⟨hlog, hstart⟩ := setup_keeps n w logDir requestId now
  refine ⟨hstart, ?_, tsShape_formatTs now⟩
  rw [hlog]
  unfold setupLogPath filepathJoin
  rw [if_neg hdir]
  rw [if_neg (append_ne_empty_of_right _ ".log" (by decide))]
  simp [validFilename, truncString, String.append_assoc]

/-- Witness for `setup_c5_log_path` at a concrete node and instant. -/
theorem setup_c5_log_path_witness :
    (setup
        { name := "step 1", dir := "/work", stdout := "", script := "",
          log := "", startedAt := Option.none, error := Option.none,
          logFile := Option.none, logWriter := false,
          stdoutFile := Option.none, stdoutWriter := false,
          scriptFile := Option.none }
        { openFile := fun _ => Option.none, createTempOk := true,
          tempName := "t", writeErr := Option.none, syncErr := Option.none }
        "/logs" "req4567890" ⟨2026, 10, 11, 13, 5, 7, 42⟩).1.log
      = "/logs" ++ "/"
        ++ String.mk ("step 1".data.map (fun c => if filenameSafe c then c else '_'))
        ++ "." ++ formatTs ⟨2026, 10, 11, 13, 5, 7, 42⟩ ++ "."
        ++ String.mk ("req4567890".data.take 8) ++ ".log" :=
  (setup_c5_log_path
    { name := "step 1", dir := "/work", stdout := "", script := "",
      log := "", startedAt := Option.none, error := Option.none,
      logFile := Option.none, logWriter := false,
      stdoutFile := Option.none, stdoutWriter := false,
      scriptFile := Option.none }
    { openFile := fun _ => Option.none, createTempOk := true,
      tempName := "t", writeErr := Option.none, syncErr := Option.none }
    "/logs" "req4567890" ⟨2026, 10, 11, 13, 5, 7, 42⟩ (by decide)).2.1

/-- C8: when a step declares a stdout-redirect path, setup opens or creates
the redirect file at that path when it is absolute, and otherwise at the
path joined under the step's working directory: on success the node's
redirect file is opened at exactly that path, and on failure the error of
opening exactly that path is returned. -/
theorem setupStdout_c8 (n : SetupNode) (w : SetupWorld) (hso : n.stdout ≠ "") :
    (isAbs n.stdout = true → stdoutPath n.dir n.stdout = n.stdout)
    ∧ (isAbs n.stdout = false →
        stdoutPath n.dir n.stdout = filepathJoin n.dir n.stdout)
    ∧ (w.openFile (stdoutPath n.dir n.stdout) = Option.none →
        (setupStdout n w).1.stdoutFile = some (stdoutPath n.dir n.stdout)
        ∧ (setupStdout n w).1.stdoutWriter = true)
    ∧ (∀ e, w.openFile (stdoutPath n.dir n.stdout) = some e →
        (setupStdout n w).2 = some e
        ∧ (setupStdout n w).1.error = some e) := by
  refine ⟨?_, ?_, ?_, ?_⟩
  · intro habs; simp [stdoutPath, habs]
  · intro habs; simp [stdoutPath, habs]
  · intro hopen; simp [setupStdout, hso, hopen]
  · intro e hopen; simp [setupStdout, hso, hopen]

/-- Witness for `setupStdout_c8`: a relative redirect path `out.txt` under
working directory `/work` is opened at `/work/out.txt`. -/
theorem setupStdout_c8_witness :
    (setupStdout
        { name := "s", dir := "/work", stdout := "out.txt", script := "",
          log := "", startedAt := Option.none, error := Option.none,
          logFile := Option.none, logWriter := false,
          stdoutFile := Option.none, stdoutWriter := false,
          scriptFile := Option.none }
        { openFile := fun _ => Option.none, createTempOk := true,
          tempName := "t", writeErr := Option.none, syncErr := Option.none }).1.stdoutFile
      = some (stdoutPath "/work" "out.txt") :=
  ((setupStdout_c8
    { name := "s", dir := "/work", stdout := "out.txt", script := "",
      log := "", startedAt := Option.none, error := Option.none,
      logFile := Option.none, logWriter := false,
      stdoutFile := Option.none, stdoutWriter := false,
      scriptFile := Option.none }
    { openFile := fun _ => Option.none, createTempOk := true,
      tempName := "t", writeErr := Option.none, syncErr := Option.none }
    (by decide)).2.2.1 rfl).1

/-- The error `setupScript` produces on a step with a script, as a function
of the world: a failed `os.CreateTemp` surfaces as `os.ErrInvalid` from the
subsequent `WriteString` on the nil handle; otherwise the `WriteString`
error, else the `Sync` error. -/
def scriptErr (w : SetupWorld) : Option Err :=
  if w.createTempOk then
    match w.writeErr with
    | some e => some e
    | Option.none => w.syncErr
  else some errInvalid

/-- C7: setup runs its sub-steps (log file, stdout-redirect file, script
file) in order and stops at the first failure: the failing sub-step's error
is returned and recorded in the node's `Error`, and the later sub-steps are
not executed (their node fields are untouched). -/
theorem setup_c7_first_error (n : SetupNode) (w : SetupWorld)
    (logDir requestId : String) (now : DateTime) (hdir : logDir ≠ "") :
    (∀ e, w.openFile (setupLogPath logDir requestId n.name now) = some e →
        (setup n w logDir requestId now).2 = some e
        ∧ (setup n w logDir requestId now).1.error = some e
        ∧ (setup n w logDir requestId now).1.stdoutFile = n.stdoutFile
        ∧ (setup n w logDir requestId now).1.stdoutWriter = n.stdoutWriter
        ∧ (setup n w logDir requestId now).1.scriptFile = n.scriptFile)
    ∧ (∀ e, w.openFile (setupLogPath logDir requestId n.name now) = Option.none →
        n.stdout ≠ "" → w.openFile (stdoutPath n.dir n.stdout) = some e →
        (setup n w logDir requestId now).2 = some e
        ∧ (setup n w logDir requestId now).1.error = some e
        ∧ (setup n w logDir requestId now).1.scriptFile = n.scriptFile)
    ∧ (∀ e, w.openFile (setupLogPath logDir requestId n.name now) = Option.none →
        (n.stdout = "" ∨ w.openFile (stdoutPath n.dir n.stdout) = Option.none) →
        n.script ≠ "" → scriptErr w = some e →
        (setup n w logDir requestId now).2 = some e
        ∧ (setup n w logDir requestId now).1.error = some e) := by
  have hpne := setupLogPath_ne_empty logDir requestId n.name now hdir
  refine ⟨?_, ?_, ?_⟩
  · intro e h1
    simp [setup, setupLog, hpne, h1, andThen]
  · intro e h1 hstd h2
    simp [setup, setupLog, setupStdout, hpne, h1, hstd, h2, andThen]
  · intro e h1 hstdok hscript hserr
    by_cases hct : w.createTempOk = true
    · rcases hw : w.writeErr with _ | e1
      · have hsync : w.syncErr = some e := by
          simpa [scriptErr, hct, hw] using hserr
        by_cases hs0 : n.stdout = ""
        · simp [setup, setupLog, setupStdout, setupScript, hpne, h1, hs0,
            hscript, hct, hw, hsync, andThen]
        · have hs2 := hstdok.resolve_left hs0
          simp [setup, setupLog, setupStdout, setupScript, hpne, h1, hs0, hs2,
            hscript, hct, hw, hsync, andThen]
      · have he : e1 = e := by simpa [scriptErr, hct, hw] using hserr
        subst he
        by_cases hs0 : n.stdout = ""
        · simp [setup, setupLog, setupStdout, setupScript, hpne, h1, hs0,
            hscript, hct, hw, andThen]
        · have hs2 := hstdok.resolve_left hs0
          simp [setup, setupLog, setupStdout, setupScript, hpne, h1, hs0, hs2,
            hscript, hct, hw, andThen]
    · have hctf : w.createTempOk = false := by simpa using hct
      have he : errInvalid = e := by simpa [scriptErr, hctf] using hserr
      by_cases hs0 : n.stdout = ""
      · simp [setup, setupLog, setupStdout, setupScript, hpne, h1, hs0,
          hscript, hctf, he, andThen]
      · have hs2 := hstdok.resolve_left hs0
        simp [setup, setupLog, setupStdout, setupScript, hpne, h1, hs0, hs2,
          hscript, hctf, he, andThen]

/-- Witness for `setup_c7_first_error`: the log file cannot be created
(`disk full`); setup returns that error, records it, and never touches the
stdout or script fields. -/
theorem setup_c7_first_error_witness :
    (setup
        { name := "s", dir := "/work", stdout := "out.txt", script := "body",
          log := "", startedAt := Option.none, error := Option.none,
          logFile := Option.none, logWriter := false,
          stdoutFile := Option.none, stdoutWriter := false,
          scriptFile := Option.none }
        { openFile := fun _ => some "disk full", createTempOk := true,
          tempName := "t", writeErr := Option.none, syncErr := Option.none }
        "/logs" "req" ⟨2026, 10, 11, 13, 5, 7, 42⟩).2 = some "disk full"
    ∧ (setup
        { name := "s", dir := "/work", stdout := "out.txt", script := "body",
          log := "", startedAt := Option.none, error := Option.none,
          logFile := Option.none, logWriter := false,
          stdoutFile := Option.none, stdoutWriter := false,
          scriptFile := Option.none }
        { openFile := fun _ => some "disk full", createTempOk := true,
          tempName := "t", writeErr := Option.none, syncErr := Option.none }
        "/logs" "req" ⟨2026, 10, 11, 13, 5, 7, 42⟩).1.error = some "disk full" := by
  have h := (setup_c7_first_error
    { name := "s", dir := "/work", stdout := "out.txt", script := "body",
      log := "", startedAt := Option.none, error := Option.none,
      logFile := Option.none, logWriter := false,
      stdoutFile := Option.none, stdoutWriter := false,
      scriptFile := Option.none }
    { openFile := fun _ => some "disk full", createTempOk := true,
      tempName := "t", writeErr := Option.none, syncErr := Option.none }
    "/logs" "req" ⟨2026, 10, 11, 13, 5, 7, 42⟩ (by decide)).1 "disk full" rfl
  exact ⟨h.1, h.2.1⟩

end Dagu
